import Mathlib

/-!
# The `Point` extension type of `c-extension-demo`

A shallow embedding of `src/point.c` and `src/c_point/point.c`: the `PointObject`
record, `Point_new`, `Point_init`, `Point_clear`, `point_repr` and the
`Point_members` table, together with the parts of the C library and of the CPython
C-API those functions call (`snprintf` with `%f`, `PyFloat_AsDouble`,
`PyArg_ParseTupleAndKeywords`, `_PyUnicode_FromASCII`, `PyMember_GetOne`,
`PyMember_SetOne`).
-/

/-! ## IEEE 754 binary64 values -/

/-- A C `double`: sign bit, 11-bit biased exponent, 52-bit fraction. -/
structure Double where
  sign : Bool
  expo : Fin 2048
  frac : Fin 4503599627370496
deriving DecidableEq, Repr

namespace Double

/-- Build a double from raw fields, each reduced to its bit width. -/
def ofBits (s : Bool) (e f : Nat) : Double :=
  ⟨s, ⟨e % 2048, Nat.mod_lt _ (by decide)⟩,
    ⟨f % 4503599627370496, Nat.mod_lt _ (by decide)⟩⟩

/-- The literal `0.0`. -/
def zero : Double := ofBits false 0 0

/-- The literal `-1.0`. -/
def negOne : Double := ofBits true 1023 0

/-- The value `2.0`. -/
def two : Double := ofBits false 1024 0

/-- The value `4.0`. -/
def four : Double := ofBits false 1025 0

/-- The value `1.0`. -/
def one : Double := ofBits false 1023 0

/-- Positive infinity. -/
def inf : Double := ofBits false 2047 0

/-- Negative infinity. -/
def negInf : Double := ofBits true 2047 0

/-- A quiet NaN with the sign bit clear. -/
def nan : Double := ofBits false 2047 2251799813685248

/-- The largest finite double, `DBL_MAX` (about 1.8e308). -/
def dblMax : Double := ofBits false 2046 4503599627370495

/-- The double `1e22` (exactly `10^22`). -/
def e22 : Double := ofBits false 1096 264771954660754

/-- Neither an infinity nor a NaN. -/
def isFinite (d : Double) : Bool := decide (d.expo.val ≠ 2047)

/-- Integer significand of a finite double (hidden bit included for normal numbers). -/
def mant (d : Double) : Nat :=
  if d.expo.val = 0 then d.frac.val else 4503599627370496 + d.frac.val

/-- Binary exponent of the significand: the magnitude is `mant * 2 ^ exp2`. -/
def exp2 (d : Double) : Int :=
  if d.expo.val = 0 then -1074 else (d.expo.val : Int) - 1075

/-- The magnitude of a finite double as a rational number. -/
def absRat (d : Double) : ℚ := (d.mant : ℚ) * (2 : ℚ) ^ d.exp2

end Double

/-! ## `printf`-style `%f` conversion -/

/-- The character for a decimal digit `d < 10`. -/
def digitChar (d : Nat) : Char := Char.ofNat (48 + d)

/-- Decimal digits of `n`, most significant first, no leading zeros (`0` gives `"0"`). -/
def decDigits : Nat → Nat → List Char
  | 0, _ => []
  | fuel + 1, n =>
    if n < 10 then [digitChar n] else decDigits fuel (n / 10) ++ [digitChar (n % 10)]

/-- Exactly `w` decimal digits of `n % 10 ^ w`, zero padded on the left. -/
def padDigits : Nat → Nat → List Char
  | 0, _ => []
  | w + 1, n => padDigits w (n / 10) ++ [digitChar (n % 10)]

/-- Integer nearest to `num / den`, ties to the even integer (the default rounding mode). -/
def roundHalfEven (num den : Nat) : Nat :=
  let q := num / den
  let r := num % den
  if 2 * r > den ∨ (2 * r = den ∧ q % 2 = 1) then q + 1 else q

/-- The magnitude of a finite double times `10 ^ 6`, rounded to an integer. -/
def scaled6 (d : Double) : Nat :=
  if 0 ≤ d.exp2 then d.mant * 2 ^ d.exp2.toNat * 1000000
  else roundHalfEven (d.mant * 1000000) (2 ^ (-d.exp2).toNat)

/-- Sign prefix printed by `%f`. -/
def signChars (d : Double) : List Char := if d.sign then ['-'] else []

/-- The conversion `%f` (default precision 6) of a double, in the "C" locale. -/
def format_f (d : Double) : List Char :=
  if d.expo.val = 2047 then
    signChars d ++ (if d.frac.val = 0 then "inf".toList else "nan".toList)
  else
    let n := scaled6 d
    signChars d ++ decDigits (n / 1000000 + 1) (n / 1000000) ++ '.' :: padDigits 6 n

/-- Full output of the format string `"Point(%f, %f, %f)"`. -/
def format_Point (x y z : Double) : List Char :=
  "Point(".toList ++ format_f x ++ ", ".toList ++ format_f y ++ ", ".toList ++
    format_f z ++ ")".toList

/-- The function `snprintf(buffer, size, ...)` given the full formatted output: the bytes
stored in the buffer (at most `size - 1` characters and the terminating NUL) and the
returned `int`, the length of the full output. -/
def snprintf (size : Nat) (out : List Char) : List Char × Int :=
  (if size = 0 then [] else out.take (size - 1) ++ [Char.ofNat 0], (out.length : Int))

/-- The function `_PyUnicode_FromASCII(buffer, size)`: the string made of the first `size`
bytes at `buffer`, given the bytes the array holds. A negative size or a read past the
end of the array has no defined result. -/
def _PyUnicode_FromASCII (buffer : List Char) (size : Int) : Option String :=
  if 0 ≤ size ∧ size.toNat ≤ buffer.length then some (String.mk (buffer.take size.toNat))
  else none

/-! ## Python objects and the C-API calls of `Point_init` -/

/-- The Python values passed to the constructor. -/
inductive PyObject where
  | float (d : Double)
  | long (n : Int)
  | bool (b : Bool)
  | str (s : String)
  | none
deriving DecidableEq, Repr

/-- Exceptions left in the error indicator. -/
inductive PyErr where
  | TypeError
  | OverflowError
  | MemoryError
  | AttributeError
  | SystemError
deriving DecidableEq, Repr

/-- Number of binary digits of `n` (`0` for `0`), by halving at most `fuel` times. -/
def bitLength : Nat → Nat → Nat
  | 0, _ => 0
  | fuel + 1, n => if n = 0 then 0 else bitLength fuel (n / 2) + 1

/-- Nearest double to a natural number, ties to even; `none` when it exceeds the
double range (`PyLong_AsDouble` raises `OverflowError`). -/
def natToDouble (sign : Bool) (n : Nat) : Option Double :=
  if n = 0 then some Double.zero
  else
    let k := bitLength n n - 1
    if k ≤ 52 then some (Double.ofBits sign (1023 + k) (n * 2 ^ (52 - k) - 4503599627370496))
    else
      let q := roundHalfEven n (2 ^ (k - 52))
      let e := if q = 9007199254740992 then k + 1 else k
      let m := if q = 9007199254740992 then 4503599627370496 else q
      if 1024 ≤ e then Option.none
      else some (Double.ofBits sign (1023 + e) (m - 4503599627370496))

/-- The function `PyLong_AsDouble`. -/
def PyLong_AsDouble (n : Int) : Option Double :=
  natToDouble (decide (n < 0)) n.natAbs

/-- The function `PyFloat_AsDouble`: the C double of a Python object and the exception it
sets, if any. On failure the returned double is `-1.0`. -/
def PyFloat_AsDouble (op : PyObject) : Double × Option PyErr :=
  match op with
  | .float d => (d, Option.none)
  | .long n =>
    match PyLong_AsDouble n with
    | some d => (d, Option.none)
    | Option.none => (Double.negOne, some PyErr.OverflowError)
  | .bool b => (if b then Double.one else Double.zero, Option.none)
  | .str _ => (Double.negOne, some PyErr.TypeError)
  | .none => (Double.negOne, some PyErr.TypeError)

/-- A value the float conversion accepts. -/
def convertible (op : PyObject) : Bool := (PyFloat_AsDouble op).2.isNone

/-- The keyword list `kwlist` of `Point_init` (without the `NULL` sentinel). -/
def kwlist : List String := ["x", "y", "z"]

/-- Item lookup in a keyword dictionary (`PyDict_GetItemString`). -/
def dictGet (kwds : List (String × PyObject)) (key : String) : Option PyObject :=
  (kwds.find? (fun kv => kv.1 == key)).map Prod.snd

/-- The conversion loop of `PyArg_ParseTupleAndKeywords` for a format of optional `O`
items, from slot `i` on, over the names of the keyword list still to visit: a slot takes
positional argument `i` when there is one, else the keyword of its name, looked up while
keywords remain (`nkwargs` counts the keywords not yet matched). Returns the object
stored for each slot, and `some nkwargs` when the loop runs to its end, `none` when it
returns success early because no keyword is left. -/
def parseLoop (args : List PyObject) (kwds : List (String × PyObject)) :
    List String → Nat → Nat → List (Option PyObject) × Option Nat
  | [], _, nkwargs => ([], some nkwargs)
  | name :: rest, i, nkwargs =>
    if i < args.length then
      let r := parseLoop args kwds rest (i + 1) nkwargs
      (args.get? i :: r.1, r.2)
    else if nkwargs ≠ 0 then
      match dictGet kwds name with
      | some o =>
        let r := parseLoop args kwds rest (i + 1) (nkwargs - 1)
        (some o :: r.1, r.2)
      | Option.none =>
        let r := parseLoop args kwds rest (i + 1) nkwargs
        (Option.none :: r.1, r.2)
    else (Option.none :: rest.map (fun _ => Option.none), Option.none)

/-- The call `PyArg_ParseTupleAndKeywords(args, kwds, "|OOO", kwlist, &x, &y, &z)`: the
three objects stored (`none` for a pointer left `NULL`), or the exception raised: when
more than three arguments are passed, when a coordinate is passed both by position and
by name, or when a keyword is none of `x`, `y`, `z`. -/
def PyArg_ParseTupleAndKeywords (args : List PyObject) (kwds : List (String × PyObject)) :
    Except PyErr (Option PyObject × Option PyObject × Option PyObject) :=
  if args.length + kwds.length > kwlist.length then Except.error PyErr.TypeError
  else
    let r := parseLoop args kwds kwlist 0 kwds.length
    let out := (r.1.getD 0 Option.none, r.1.getD 1 Option.none, r.1.getD 2 Option.none)
    match r.2 with
    | Option.none => Except.ok out
    | some nkwargs =>
      if nkwargs > 0 then
        if (kwlist.take args.length).any (fun name => (dictGet kwds name).isSome) then
          Except.error PyErr.TypeError
        else if kwds.any (fun kv => !kwlist.contains kv.1) then
          Except.error PyErr.TypeError
        else Except.ok out
      else Except.ok out

/-! ## The extension type -/

/-- The struct `PointObject` (the object header is left out). -/
structure PointObject where
  x : Double
  y : Double
  z : Double
deriving DecidableEq, Repr

/-- What `Point_init` leaves behind: the object, the returned `int` and the error
indicator. -/
structure InitResult where
  self : PointObject
  ret : Int
  err : Option PyErr
deriving DecidableEq, Repr

/-- One `if (o) { field = PyFloat_AsDouble(o); }` statement acting on the object and the
error indicator. -/
def storeCoord (set : PointObject → Double → PointObject) (o : Option PyObject)
    (st : PointObject × Option PyErr) : PointObject × Option PyErr :=
  match o with
  | Option.none => st
  | some v =>
    let r := PyFloat_AsDouble v
    (set st.1 r.1, if r.2.isSome then r.2 else st.2)

namespace point

/-- The function `Point_new` of `src/point.c`; the argument is the result of
`type->tp_alloc(type, 0)` (`none` for `NULL`). The C parameters `args` and `kwds` are not
used by the function. -/
def Point_new (alloc : Option PointObject) : Option PointObject :=
  match alloc with
  | some self => some { self with x := Double.zero, y := Double.zero, z := Double.zero }
  | Option.none => Option.none

/-- The function `Point_init` of `src/point.c`. -/
def Point_init (self : PointObject) (args : List PyObject) (kwds : List (String × PyObject)) :
    InitResult :=
  match PyArg_ParseTupleAndKeywords args kwds with
  | Except.error e => ⟨self, -1, some e⟩
  | Except.ok (x, y, z) =>
    let s0 : PointObject × Option PyErr := (self, Option.none)
    let s1 := storeCoord (fun p d => { p with x := d }) x s0
    let s2 := storeCoord (fun p d => { p with y := d }) y s1
    let s3 := storeCoord (fun p d => { p with z := d }) z s2
    ⟨s3.1, 0, s3.2⟩

/-- The function `Point_clear` of `src/point.c`: the object afterwards and the returned
object (`Py_None`). -/
def Point_clear (self : PointObject) : PointObject × PyObject :=
  ({ self with x := Double.zero, y := Double.zero, z := Double.zero }, PyObject.none)

/-- The function `point_repr` of `src/point.c`, with `char buffer[100]`. -/
def point_repr (self : PointObject) : Option String :=
  let r := snprintf 100 (format_Point self.x self.y self.z)
  _PyUnicode_FromASCII r.1 r.2

end point

namespace c_point

/-- The function `Point_new` of `src/c_point/point.c`. -/
def Point_new (alloc : Option PointObject) : Option PointObject :=
  match alloc with
  | some self => some { self with x := Double.zero, y := Double.zero, z := Double.zero }
  | Option.none => Option.none

/-- The function `Point_init` of `src/c_point/point.c`. -/
def Point_init (self : PointObject) (args : List PyObject) (kwds : List (String × PyObject)) :
    InitResult :=
  match PyArg_ParseTupleAndKeywords args kwds with
  | Except.error e => ⟨self, -1, some e⟩
  | Except.ok (x, y, z) =>
    let s0 : PointObject × Option PyErr := (self, Option.none)
    let s1 := storeCoord (fun p d => { p with x := d }) x s0
    let s2 := storeCoord (fun p d => { p with y := d }) y s1
    let s3 := storeCoord (fun p d => { p with z := d }) z s2
    ⟨s3.1, 0, s3.2⟩

/-- The function `Point_clear` of `src/c_point/point.c`. -/
def Point_clear (self : PointObject) : PointObject × PyObject :=
  ({ self with x := Double.zero, y := Double.zero, z := Double.zero }, PyObject.none)

/-- The function `point_repr` of `src/c_point/point.c`. -/
def point_repr (self : PointObject) : Option String :=
  let r := snprintf 100 (format_Point self.x self.y self.z)
  _PyUnicode_FromASCII r.1 r.2

end c_point

/-- Object creation by the host: `tp_new`, then `tp_init` on the new object; the call
fails when `tp_new` returns `NULL`, when `tp_init` returns a negative value, or when
`tp_init` returns with the error indicator set. -/
def Construct (alloc : Option PointObject) (args : List PyObject)
    (kwds : List (String × PyObject)) : Except PyErr PointObject :=
  match point.Point_new alloc with
  | Option.none => Except.error PyErr.MemoryError
  | some self =>
    let r := point.Point_init self args kwds
    if r.ret < 0 then Except.error (r.err.getD PyErr.SystemError)
    else if r.err.isSome then Except.error PyErr.SystemError
    else Except.ok r.self

/-- The keyword dictionary of a call that passes the given coordinates by name. -/
def kwargs (x y z : Option PyObject) : List (String × PyObject) :=
  (x.map (fun o => ("x", o))).toList ++ (y.map (fun o => ("y", o))).toList ++
    (z.map (fun o => ("z", o))).toList

/-- The value a supplied coordinate converts to, `0.0` for one left out. -/
def coordOr (o : Option PyObject) (dflt : Double) : Double :=
  match o with
  | some v => (PyFloat_AsDouble v).1
  | Option.none => dflt

/-! ## Member access through `Point_members` -/

/-- The field an `offsetof(PointObject, ...)` designates. -/
inductive Offset where
  | x
  | y
  | z
deriving DecidableEq, Repr

/-- An entry of a `PyMemberDef` table. -/
structure PyMemberDef where
  name : String
  type : Nat
  offset : Offset
  flags : Nat
  doc : String
deriving DecidableEq, Repr

/-- The member type code `T_DOUBLE` of `structmember.h`. -/
def T_DOUBLE : Nat := 4

/-- The member flag `READONLY` of `structmember.h`. -/
def READONLY : Nat := 1

/-- The table `Point_members` (without the sentinel). -/
def Point_members : List PyMemberDef :=
  [⟨"x", T_DOUBLE, Offset.x, 0, "X Position."⟩,
   ⟨"y", T_DOUBLE, Offset.y, 0, "Y Position."⟩,
   ⟨"z", T_DOUBLE, Offset.z, 0, "Z Position."⟩]

/-- Load of the double at an offset. -/
def loadDouble (self : PointObject) : Offset → Double
  | Offset.x => self.x
  | Offset.y => self.y
  | Offset.z => self.z

/-- Store of a double at an offset. -/
def storeDouble (self : PointObject) (o : Offset) (d : Double) : PointObject :=
  match o with
  | Offset.x => { self with x := d }
  | Offset.y => { self with y := d }
  | Offset.z => { self with z := d }

/-- The function `PyMember_GetOne` for the member types used by the table. -/
def PyMember_GetOne (self : PointObject) (m : PyMemberDef) : Except PyErr PyObject :=
  if m.type = T_DOUBLE then Except.ok (PyObject.float (loadDouble self m.offset))
  else Except.error PyErr.SystemError

/-- What `PyMember_SetOne` leaves behind: the object, the returned `int` and the error
indicator. -/
structure SetResult where
  self : PointObject
  ret : Int
  err : Option PyErr
deriving DecidableEq, Repr

/-- The function `PyMember_SetOne` for the member types used by the table; `v = none` is
attribute deletion. The `T_DOUBLE` case stores the result of `PyFloat_AsDouble` in the
field and then returns `-1` when that result is `-1.0` with an exception set. -/
def PyMember_SetOne (self : PointObject) (m : PyMemberDef) (v : Option PyObject) :
    SetResult :=
  if m.flags % 2 = READONLY then ⟨self, -1, some PyErr.AttributeError⟩
  else
    match v with
    | Option.none => ⟨self, -1, some PyErr.TypeError⟩
    | some o =>
      if m.type = T_DOUBLE then
        let r := PyFloat_AsDouble o
        let stored := storeDouble self m.offset r.1
        if r.1 = Double.negOne ∧ r.2.isSome then ⟨stored, -1, r.2⟩
        else ⟨stored, 0, r.2⟩
      else ⟨self, -1, some PyErr.SystemError⟩

/-- The entry of `Point_members` an attribute name designates. -/
def memberNamed (name : String) : Option PyMemberDef :=
  Point_members.find? (fun m => m.name == name)

/-- The attribute name of a field of `PointObject`. -/
def fieldName : Offset → String
  | Offset.x => "x"
  | Offset.y => "y"
  | Offset.z => "z"

/-- The origin, the state `Point_new` leaves. -/
def origin : PointObject := ⟨Double.zero, Double.zero, Double.zero⟩

/-! ## The rendering the specification asks for -/

/-- The number written by a string of decimal digits. -/
def decValue (cs : List Char) : Nat :=
  cs.foldl (fun a c => 10 * a + (c.toNat - 48)) 0

/-- The text `s` is a fixed-precision decimal rendering of `d` with exactly six digits
after the decimal point: the sign, an integer part of at least one digit without a
superfluous leading zero, the point, six digits; the number written is within half a
unit of the sixth decimal of the magnitude of `d`. -/
def IsFixed6 (d : Double) (s : List Char) : Prop :=
  ∃ ip fp : List Char,
    s = signChars d ++ ip ++ '.' :: fp ∧
    ip ≠ [] ∧ (∀ c ∈ ip, c.isDigit = true) ∧ (ip = ['0'] ∨ ip.head? ≠ some '0') ∧
    fp.length = 6 ∧ (∀ c ∈ fp, c.isDigit = true) ∧
    |(decValue (ip ++ fp) : ℚ) / 1000000 - d.absRat| ≤ 1 / 2000000

/-- The text `s` is the rendering of a non-finite `d`: `inf` for an infinity and `nan`
for a NaN, after a minus sign when the sign bit is set. -/
def IsInfNan (d : Double) (s : List Char) : Prop :=
  s = (if d.sign then ['-'] else []) ++
    (if d.frac.val = 0 then ['i', 'n', 'f'] else ['n', 'a', 'n'])

/-- The text `s` renders the coordinate `d`: in fixed precision when `d` is finite, as
`inf` or `nan` when it is not. -/
def IsCoordText (d : Double) (s : List Char) : Prop :=
  (d.isFinite = true → IsFixed6 d s) ∧ (d.isFinite = false → IsInfNan d s)

/-- The text `Point(<x>, <y>, <z>)` with each coordinate rendered as `IsCoordText`
says. -/
def RendersPoint (p : PointObject) : Prop :=
  ∃ sx sy sz : List Char,
    IsCoordText p.x sx ∧ IsCoordText p.y sy ∧ IsCoordText p.z sz ∧
    point.point_repr p =
      some (String.mk ("Point(".toList ++ sx ++ ", ".toList ++ sy ++ ", ".toList ++ sz ++
        ")".toList))

/-- The rendering of a point the specification describes: the text
`Point(<x>, <y>, <z>)` with each coordinate in fixed precision. -/
def RendersFixed6 (p : PointObject) : Prop :=
  ∃ sx sy sz : List Char,
    IsFixed6 p.x sx ∧ IsFixed6 p.y sy ∧ IsFixed6 p.z sz ∧
    point.point_repr p =
      some (String.mk ("Point(".toList ++ sx ++ ", ".toList ++ sy ++ ", ".toList ++ sz ++
        ")".toList))

/-! ## Theorems -/

set_option exponentiation.threshold 2000
set_option maxRecDepth 100000

theorem storeCoord_none (set : PointObject → Double → PointObject)
    (st : PointObject × Option PyErr) : storeCoord set Option.none st = st := rfl

theorem storeCoord_conv (set : PointObject → Double → PointObject) (o : PyObject)
    (st : PointObject × Option PyErr) (h : convertible o = true) :
    storeCoord set (some o) st = (set st.1 (PyFloat_AsDouble o).1, st.2) := by
  unfold convertible at h
  cases hr : (PyFloat_AsDouble o).2 with
  | none => simp [storeCoord, hr]
  | some e => simp [hr] at h

/-! ### Decimal digits -/

theorem digitChar_isDigit (k : Nat) (h : k < 10) : (digitChar k).isDigit = true := by
  interval_cases k <;> rfl

theorem digitChar_toNat (k : Nat) (h : k < 10) : (digitChar k).toNat - 48 = k := by
  interval_cases k <;> rfl

theorem decValue_snoc (cs : List Char) (c : Char) :
    decValue (cs ++ [c]) = 10 * decValue cs + (c.toNat - 48) := by
  simp [decValue, List.foldl_append]

theorem foldl_dec_init (cs : List Char) (a : Nat) :
    cs.foldl (fun a c => 10 * a + (c.toNat - 48)) a = a * 10 ^ cs.length + decValue cs := by
  induction cs generalizing a with
  | nil => simp [decValue]
  | cons c cs ih =>
    simp only [List.foldl_cons, List.length_cons, decValue]
    rw [ih, ih (10 * 0 + (c.toNat - 48))]
    ring

theorem decValue_append (as bs : List Char) :
    decValue (as ++ bs) = decValue as * 10 ^ bs.length + decValue bs := by
  unfold decValue
  rw [List.foldl_append, foldl_dec_init]
  rfl

theorem decDigits_ne_nil (fuel n : Nat) : decDigits (fuel + 1) n ≠ [] := by
  unfold decDigits
  split <;> simp

theorem decDigits_isDigit : ∀ (fuel n : Nat), ∀ c ∈ decDigits fuel n, c.isDigit = true := by
  intro fuel
  induction fuel with
  | zero => intro n c hc; simp [decDigits] at hc
  | succ f ih =>
    intro n c hc
    unfold decDigits at hc
    split at hc
    · simp only [List.mem_singleton] at hc
      subst hc
      exact digitChar_isDigit n (by assumption)
    · rcases List.mem_append.mp hc with h | h
      · exact ih _ c h
      · simp only [List.mem_singleton] at h
        subst h
        exact digitChar_isDigit _ (Nat.mod_lt _ (by decide))

theorem decDigits_value : ∀ (fuel n : Nat), n < fuel → decValue (decDigits fuel n) = n := by
  intro fuel
  induction fuel with
  | zero => intro n h; omega
  | succ f ih =>
    intro n h
    unfold decDigits
    split
    · rename_i h10
      simp [decValue, digitChar_toNat n h10]
    · rw [decValue_snoc, ih (n / 10) (by omega), digitChar_toNat _ (Nat.mod_lt _ (by decide))]
      omega

theorem digitChar_eq_zero (k : Nat) (h : k < 10) (h0 : digitChar k = '0') : k = 0 := by
  have := digitChar_toNat k h
  rw [h0] at this
  exact this.symm

theorem decDigits_head : ∀ (fuel n : Nat), n < fuel →
    decDigits fuel n = ['0'] ∨ (decDigits fuel n).head? ≠ some '0' := by
  intro fuel
  induction fuel with
  | zero => intro n h; omega
  | succ f ih =>
    intro n h
    unfold decDigits
    split
    · rename_i h10
      by_cases hz : n = 0
      · left; subst hz; rfl
      · right
        intro hc
        simp only [List.head?_cons, Option.some.injEq] at hc
        exact hz (digitChar_eq_zero n h10 hc)
    · rename_i h10
      right
      have hlt : n / 10 < f := by omega
      have hne : decDigits f (n / 10) ≠ [] := by
        cases f with
        | zero => omega
        | succ g => exact decDigits_ne_nil g _
      rcases ih (n / 10) hlt with h1 | h1
      · have hv := decDigits_value f (n / 10) hlt
        rw [h1] at hv
        have : decValue ['0'] = 0 := rfl
        omega
      · intro hc
        apply h1
        cases hd : decDigits f (n / 10) with
        | nil => exact absurd hd hne
        | cons a as =>
          rw [hd] at hc
          simpa using hc

theorem padDigits_length : ∀ (w n : Nat), (padDigits w n).length = w := by
  intro w
  induction w with
  | zero => intro n; rfl
  | succ w ih => intro n; simp [padDigits, ih]

theorem padDigits_isDigit : ∀ (w n : Nat), ∀ c ∈ padDigits w n, c.isDigit = true := by
  intro w
  induction w with
  | zero => intro n c hc; simp [padDigits] at hc
  | succ w ih =>
    intro n c hc
    unfold padDigits at hc
    rcases List.mem_append.mp hc with h | h
    · exact ih _ c h
    · simp only [List.mem_singleton] at h
      subst h
      exact digitChar_isDigit _ (Nat.mod_lt _ (by decide))

theorem padDigits_value : ∀ (w n : Nat), decValue (padDigits w n) = n % 10 ^ w := by
  intro w
  induction w with
  | zero => intro n; simp [padDigits, decValue, Nat.mod_one]
  | succ w ih =>
    intro n
    unfold padDigits
    rw [decValue_snoc, ih, digitChar_toNat _ (Nat.mod_lt _ (by decide)), pow_succ,
      Nat.mul_comm (10 ^ w) 10, Nat.mod_mul]
    omega

/-! ### Rounding -/

theorem roundHalfEven_close (num den : Nat) (hden : 0 < den) :
    |(roundHalfEven num den : ℚ) - (num : ℚ) / den| ≤ 1 / 2 := by
  have hd : (0 : ℚ) < den := by exact_mod_cast hden
  have hsplit : (num : ℚ) = (den : ℚ) * (num / den : Nat) + (num % den : Nat) := by
    exact_mod_cast (Nat.div_add_mod num den).symm
  have hr : num % den < den := Nat.mod_lt _ hden
  have hrq : ((num % den : Nat) : ℚ) < den := by exact_mod_cast hr
  have hr0 : (0 : ℚ) ≤ ((num % den : Nat) : ℚ) := by positivity
  have hquot : (num : ℚ) / den = (num / den : Nat) + ((num % den : Nat) : ℚ) / den := by
    rw [eq_comm, ← sub_eq_zero]
    field_simp
    rw [hsplit]
    ring
  unfold roundHalfEven
  simp only
  split
  · rename_i hup
    have h2 : den ≤ 2 * (num % den) := by
      rcases hup with h | ⟨h, _⟩ <;> omega
    have h2q : (den : ℚ) ≤ 2 * ((num % den : Nat) : ℚ) := by exact_mod_cast h2
    rw [hquot, abs_le]
    push_cast
    constructor
    · have : ((num % den : Nat) : ℚ) / den ≤ 1 := by
        rw [div_le_one hd]; exact le_of_lt hrq
      push_cast at this
      linarith
    · have : (1 : ℚ) / 2 ≤ ((num % den : Nat) : ℚ) / den := by
        rw [le_div_iff₀ hd]; linarith
      push_cast at this
      linarith
  · rename_i hdn
    have h2 : 2 * (num % den) ≤ den := by
      by_contra hc
      exact hdn (Or.inl (by omega))
    have h2q : 2 * ((num % den : Nat) : ℚ) ≤ den := by exact_mod_cast h2
    rw [hquot, abs_le]
    constructor
    · have : ((num % den : Nat) : ℚ) / den ≤ 1 / 2 := by
        rw [div_le_iff₀ hd]; linarith
      linarith
    · have : 0 ≤ ((num % den : Nat) : ℚ) / den := by positivity
      linarith

theorem scaled6_close (d : Double) :
    |(scaled6 d : ℚ) - d.absRat * 1000000| ≤ 1 / 2 := by
  unfold scaled6 Double.absRat
  split
  · rename_i hpos
    have he : d.exp2 = ((d.exp2.toNat : Nat) : ℤ) := (Int.toNat_of_nonneg hpos).symm
    have : (2 : ℚ) ^ d.exp2 = (2 : ℚ) ^ d.exp2.toNat := by
      conv_lhs => rw [he]
      exact zpow_natCast _ _
    rw [this]
    push_cast
    rw [sub_self, abs_zero]
    norm_num
  · rename_i hneg
    have hneg2 : 0 ≤ -d.exp2 := by omega
    have he : d.exp2 = -(((-d.exp2).toNat : Nat) : ℤ) := by
      rw [Int.toNat_of_nonneg hneg2]; ring
    have hp : (2 : ℚ) ^ d.exp2 = 1 / (2 : ℚ) ^ (-d.exp2).toNat := by
      conv_lhs => rw [he]
      rw [zpow_neg, zpow_natCast, one_div]
    have hc := roundHalfEven_close (d.mant * 1000000) (2 ^ (-d.exp2).toNat) (by positivity)
    rw [hp]
    have : (d.mant : ℚ) * (1 / (2 : ℚ) ^ (-d.exp2).toNat) * 1000000 =
        ((d.mant * 1000000 : Nat) : ℚ) / ((2 ^ (-d.exp2).toNat : Nat) : ℚ) := by
      push_cast
      ring
    rw [this]
    exact hc

/-! ### The `%f` conversion of a finite double -/

theorem format_f_fixed6 (d : Double) (hfin : d.isFinite = true) : IsFixed6 d (format_f d) := by
  have hne : d.expo.val ≠ 2047 := by simpa [Double.isFinite] using hfin
  refine ⟨decDigits (scaled6 d / 1000000 + 1) (scaled6 d / 1000000), padDigits 6 (scaled6 d),
    ?_, decDigits_ne_nil _ _, decDigits_isDigit _ _, decDigits_head _ _ (by omega),
    padDigits_length _ _, padDigits_isDigit _ _, ?_⟩
  · simp [format_f, hne]
  · have hv : decValue (decDigits (scaled6 d / 1000000 + 1) (scaled6 d / 1000000) ++
        padDigits 6 (scaled6 d)) = scaled6 d := by
      rw [decValue_append, decDigits_value _ _ (by omega), padDigits_value, padDigits_length]
      have := Nat.div_add_mod (scaled6 d) (10 ^ 6)
      norm_num at this ⊢
      omega
    rw [hv]
    have hc := scaled6_close d
    rw [abs_le] at hc ⊢
    constructor <;> linarith [hc.1, hc.2]

theorem format_f_infnan (d : Double) (hnf : d.isFinite = false) : IsInfNan d (format_f d) := by
  have he : d.expo.val = 2047 := by simpa [Double.isFinite] using hnf
  unfold IsInfNan format_f signChars
  rw [if_pos he]
  rfl

theorem format_f_coordText (d : Double) : IsCoordText d (format_f d) :=
  ⟨format_f_fixed6 d, format_f_infnan d⟩

/-! ### `point_repr` when the text fits the buffer -/

theorem point_repr_of_fits (p : PointObject)
    (hfit : (format_Point p.x p.y p.z).length < 100) :
    point.point_repr p = some (String.mk (format_Point p.x p.y p.z)) := by
  unfold point.point_repr snprintf _PyUnicode_FromASCII
  simp only [Int.toNat_ofNat]
  have h1 : (format_Point p.x p.y p.z).length ≤ 99 := by omega
  have htake : List.take (100 - 1) (format_Point p.x p.y p.z) = format_Point p.x p.y p.z :=
    List.take_of_length_le (by omega)
  simp only [htake]
  rw [if_pos]
  · simp [List.take_append_of_le_length]
  · simp

theorem point_repr_of_overrun (p : PointObject)
    (hbig : 100 < (format_Point p.x p.y p.z).length) :
    point.point_repr p = Option.none := by
  unfold point.point_repr snprintf _PyUnicode_FromASCII
  simp only [Int.toNat_ofNat]
  rw [if_neg]
  simp
  omega

/-! ### Keyword dictionaries -/

theorem dictGet_eq_none (kwds : List (String × PyObject)) (k : String)
    (h : ∀ kv ∈ kwds, kv.1 ≠ k) : dictGet kwds k = Option.none := by
  unfold dictGet
  rw [Option.map_eq_none', List.find?_eq_none]
  intro kv hkv
  simpa using h kv hkv

theorem dictGet_eq_some (kwds : List (String × PyObject)) (k : String) (o : PyObject)
    (hnd : (kwds.map Prod.fst).Nodup) (hmem : (k, o) ∈ kwds) : dictGet kwds k = some o := by
  induction kwds with
  | nil => simp at hmem
  | cons kv rest ih =>
    rw [List.map_cons, List.nodup_cons] at hnd
    rcases List.mem_cons.mp hmem with h | h
    · subst h
      simp [dictGet]
    · have hne : kv.1 ≠ k := by
        intro he
        apply hnd.1
        rw [he]
        exact List.mem_map.mpr ⟨(k, o), h, rfl⟩
      have := ih hnd.2 h
      unfold dictGet at this ⊢
      rw [List.find?_cons_of_neg _ (by simpa using hne)]
      exact this

theorem dictGet_mem (kwds : List (String × PyObject)) (k : String) (o : PyObject)
    (h : dictGet kwds k = some o) : (k, o) ∈ kwds := by
  unfold dictGet at h
  rw [Option.map_eq_some'] at h
  obtain ⟨kv, hf, rfl⟩ := h
  have hk := List.find?_some hf
  have hm := List.mem_of_find?_eq_some hf
  have : kv.1 = k := by simpa using hk
  rw [← this]
  exact hm

theorem dictGet_perm (kwds kwds2 : List (String × PyObject)) (k : String)
    (hp : kwds.Perm kwds2) (hnd : (kwds2.map Prod.fst).Nodup) :
    dictGet kwds k = dictGet kwds2 k := by
  have hnd1 : (kwds.map Prod.fst).Nodup := (hp.map Prod.fst).nodup_iff.mpr hnd
  cases h2 : dictGet kwds2 k with
  | some o => exact dictGet_eq_some kwds k o hnd1 (hp.mem_iff.mpr (dictGet_mem _ _ _ h2))
  | none =>
    cases h1 : dictGet kwds k with
    | none => rfl
    | some o =>
      have := dictGet_eq_some kwds2 k o hnd (hp.mem_iff.mp (dictGet_mem _ _ _ h1))
      rw [h2] at this
      exact Option.noConfusion this

theorem keys_length_le (kwds : List (String × PyObject))
    (hnd : (kwds.map Prod.fst).Nodup) (hk : ∀ kv ∈ kwds, kv.1 ∈ kwlist) :
    kwds.length ≤ 3 := by
  have hsub : kwds.map Prod.fst ⊆ kwlist := by
    intro k hkm
    obtain ⟨kv, hkv, rfl⟩ := List.mem_map.mp hkm
    exact hk kv hkv
  have := (List.subperm_of_subset hnd hsub).length_le
  simpa [kwlist] using this

theorem parse_keywords (kwds : List (String × PyObject))
    (hnd : (kwds.map Prod.fst).Nodup) (hk : ∀ kv ∈ kwds, kv.1 ∈ kwlist) :
    PyArg_ParseTupleAndKeywords [] kwds =
      Except.ok (dictGet kwds "x", dictGet kwds "y", dictGet kwds "z") := by
  have hlen := keys_length_le kwds hnd hk
  have key : ∀ kv ∈ kwds, kv.1 = "x" ∨ kv.1 = "y" ∨ kv.1 = "z" := by
    intro kv h
    simpa [kwlist] using hk kv h
  clear hk
  match kwds, hnd, key, hlen with
  | [], _, _, _ => rfl
  | [(ka, a)], _, key, _ =>
    have h1 := key (ka, a) (by simp)
    clear key
    rcases h1 with h | h | h <;> simp only at h <;> subst h <;>
      simp [PyArg_ParseTupleAndKeywords, parseLoop, dictGet, kwlist]
  | [(ka, a), (kb, b)], hnd, key, _ =>
    have h1 := key (ka, a) (by simp)
    have h2 := key (kb, b) (by simp)
    clear key
    simp only [List.map_cons, List.map_nil, List.nodup_cons, List.mem_cons,
      List.mem_singleton, List.not_mem_nil, not_or, not_false_eq_true, List.nodup_nil,
      and_true] at hnd
    rcases h1 with h | h | h <;> simp only at h <;> subst h <;>
      rcases h2 with h | h | h <;> simp only at h <;> subst h <;>
      first
        | exact absurd rfl hnd
        | simp [PyArg_ParseTupleAndKeywords, parseLoop, dictGet, kwlist]
  | [(ka, a), (kb, b), (kc, c)], hnd, key, _ =>
    have h1 := key (ka, a) (by simp)
    have h2 := key (kb, b) (by simp)
    have h3 := key (kc, c) (by simp)
    clear key
    simp only [List.map_cons, List.map_nil, List.nodup_cons, List.mem_cons,
      List.mem_singleton, List.not_mem_nil, not_or, not_false_eq_true, List.nodup_nil,
      and_true] at hnd
    obtain ⟨⟨hab, hac⟩, hbc⟩ := hnd
    rcases h1 with h | h | h <;> simp only at h <;> subst h <;>
      rcases h2 with h | h | h <;> simp only at h <;> subst h <;>
      rcases h3 with h | h | h <;> simp only at h <;> subst h <;>
      first
        | exact absurd rfl hab
        | exact absurd rfl hac
        | exact absurd rfl hbc
        | simp [PyArg_ParseTupleAndKeywords, parseLoop, dictGet, kwlist]
  | _ :: _ :: _ :: _ :: _, _, _, hlen => simp at hlen

theorem kwargs_nodup (x y z : Option PyObject) : ((kwargs x y z).map Prod.fst).Nodup := by
  cases x <;> cases y <;> cases z <;> simp [kwargs]

theorem kwargs_keys (x y z : Option PyObject) : ∀ kv ∈ kwargs x y z, kv.1 ∈ kwlist := by
  cases x <;> cases y <;> cases z <;> simp [kwargs, kwlist]

theorem dictGet_kwargs (x y z : Option PyObject) :
    dictGet (kwargs x y z) "x" = x ∧ dictGet (kwargs x y z) "y" = y ∧
      dictGet (kwargs x y z) "z" = z := by
  cases x <;> cases y <;> cases z <;> simp [kwargs, dictGet]

theorem parse_perm_kwargs (kwds : List (String × PyObject)) (x y z : Option PyObject)
    (hp : kwds.Perm (kwargs x y z)) :
    PyArg_ParseTupleAndKeywords [] kwds = Except.ok (x, y, z) := by
  have hnd := kwargs_nodup x y z
  rw [parse_keywords kwds ((hp.map Prod.fst).nodup_iff.mpr hnd)
    (fun kv h => kwargs_keys x y z kv (hp.mem_iff.mp h)),
    dictGet_perm kwds _ "x" hp hnd, dictGet_perm kwds _ "y" hp hnd,
    dictGet_perm kwds _ "z" hp hnd, (dictGet_kwargs x y z).1, (dictGet_kwargs x y z).2.1,
    (dictGet_kwargs x y z).2.2]

/-! ### `Point_init` after a successful parse -/

theorem init_of_parse (self : PointObject) (args : List PyObject)
    (kwds : List (String × PyObject)) (x y z : Option PyObject)
    (hparse : PyArg_ParseTupleAndKeywords args kwds = Except.ok (x, y, z))
    (hx : ∀ o, x = some o → convertible o = true)
    (hy : ∀ o, y = some o → convertible o = true)
    (hz : ∀ o, z = some o → convertible o = true) :
    point.Point_init self args kwds =
      ⟨⟨coordOr x self.x, coordOr y self.y, coordOr z self.z⟩, 0, Option.none⟩ := by
  simp only [point.Point_init, hparse]
  cases x with
  | none =>
    cases y with
    | none =>
      cases z with
      | none => simp [storeCoord_none, coordOr]
      | some c => simp [storeCoord_none, storeCoord_conv _ c _ (hz c rfl), coordOr]
    | some b =>
      cases z with
      | none => simp [storeCoord_none, storeCoord_conv _ b _ (hy b rfl), coordOr]
      | some c =>
        simp [storeCoord_none, storeCoord_conv _ b _ (hy b rfl),
          storeCoord_conv _ c _ (hz c rfl), coordOr]
  | some a =>
    cases y with
    | none =>
      cases z with
      | none => simp [storeCoord_none, storeCoord_conv _ a _ (hx a rfl), coordOr]
      | some c =>
        simp [storeCoord_none, storeCoord_conv _ a _ (hx a rfl),
          storeCoord_conv _ c _ (hz c rfl), coordOr]
    | some b =>
      cases z with
      | none =>
        simp [storeCoord_none, storeCoord_conv _ a _ (hx a rfl),
          storeCoord_conv _ b _ (hy b rfl), coordOr]
      | some c =>
        simp [storeCoord_none, storeCoord_conv _ a _ (hx a rfl),
          storeCoord_conv _ b _ (hy b rfl), storeCoord_conv _ c _ (hz c rfl), coordOr]

/-! ## The claims -/

/-- C1: with every supplied coordinate convertible, construction (`Point_new` on the
allocated object, then `Point_init` with the coordinates passed by name, in any order)
succeeds; each supplied coordinate holds its converted value and each coordinate left
out holds `0.0`. In particular no argument gives the origin and `x=2.0, y=-1.0, z=4.0`
gives exactly those fields. -/
theorem C1_construct (raw : PointObject) (x y z : Option PyObject)
    (kwds : List (String × PyObject)) (hkw : kwds.Perm (kwargs x y z))
    (hx : ∀ o, x = some o → convertible o = true)
    (hy : ∀ o, y = some o → convertible o = true)
    (hz : ∀ o, z = some o → convertible o = true) :
    Construct (some raw) [] kwds =
        Except.ok ⟨coordOr x Double.zero, coordOr y Double.zero, coordOr z Double.zero⟩ ∧
      (∀ d, x = some (PyObject.float d) → coordOr x Double.zero = d) ∧
      (∀ d, y = some (PyObject.float d) → coordOr y Double.zero = d) ∧
      (∀ d, z = some (PyObject.float d) → coordOr z Double.zero = d) ∧
      Construct (some raw) [] [] = Except.ok ⟨Double.zero, Double.zero, Double.zero⟩ ∧
      Construct (some raw) []
          [("x", PyObject.float Double.two), ("y", PyObject.float Double.negOne),
            ("z", PyObject.float Double.four)] =
        Except.ok ⟨Double.two, Double.negOne, Double.four⟩ := by
  refine ⟨?_, ?_, ?_, ?_, rfl, rfl⟩
  · simp only [Construct, point.Point_new]
    rw [init_of_parse _ [] kwds x y z (parse_perm_kwargs kwds x y z hkw) hx hy hz]
    simp
  · intro d h; subst h; rfl
  · intro d h; subst h; rfl
  · intro d h; subst h; rfl

/-- Witness of C1 at `z=4` (a Python int) and `x=2.0`, passed in that order, `y` left
out. -/
theorem C1_construct_witness :
    Construct (some ⟨Double.negOne, Double.negOne, Double.negOne⟩) []
        [("z", PyObject.long 4), ("x", PyObject.float Double.two)] =
      Except.ok ⟨Double.two, Double.zero, Double.four⟩ :=
  (C1_construct ⟨Double.negOne, Double.negOne, Double.negOne⟩
    (some (PyObject.float Double.two)) Option.none (some (PyObject.long 4))
    [("z", PyObject.long 4), ("x", PyObject.float Double.two)]
    (List.Perm.swap _ _ _) (by decide) (by decide) (by decide)).1.trans rfl

/-- C2: after `Point_clear` all three fields are `0.0`, whatever they held before. -/
theorem C2_clear_zeroes (p : PointObject) :
    (point.Point_clear p).1.x = Double.zero ∧ (point.Point_clear p).1.y = Double.zero ∧
      (point.Point_clear p).1.z = Double.zero :=
  ⟨rfl, rfl, rfl⟩

/-- C3 fails as stated: a point with an infinite field renders that field as `inf`,
which has no decimal digits, and a point with three fields `1e22` has no rendering at
all, its text being longer than the buffer. -/
theorem C3_not_every_point :
    ¬ RendersFixed6 ⟨Double.inf, Double.zero, Double.zero⟩ ∧
      point.point_repr ⟨Double.inf, Double.zero, Double.zero⟩ =
        some "Point(inf, 0.000000, 0.000000)" ∧
      ¬ RendersFixed6 ⟨Double.e22, Double.e22, Double.e22⟩ := by
  have hinf : point.point_repr ⟨Double.inf, Double.zero, Double.zero⟩ =
      some "Point(inf, 0.000000, 0.000000)" := by decide
  have hbig : point.point_repr ⟨Double.e22, Double.e22, Double.e22⟩ = Option.none := by
    decide
  refine ⟨?_, hinf, ?_⟩
  · rintro ⟨sx, sy, sz, ⟨ip, fp, hs, hne, hdig, -⟩, -, -, hrepr⟩
    rw [hinf] at hrepr
    have hl := congrArg String.data (Option.some.inj hrepr)
    cases ip with
    | nil => exact hne rfl
    | cons c cs =>
      have hc := hdig c (List.mem_cons_self _ _)
      subst hs
      have hsign : signChars Double.inf = [] := by decide
      simp only [hsign] at hl
      have : c = 'i' := by
        simp at hl
        exact hl.1.symm
      subst this
      exact absurd hc (by decide)
  · rintro ⟨sx, sy, sz, -, -, -, hrepr⟩
    rw [hbig] at hrepr
    exact Option.noConfusion hrepr

/-- C3 amended: for a point whose formatted text is shorter than the 100-byte buffer,
`point_repr` returns the complete text `Point(<x>, <y>, <z>)`, each finite coordinate in
fixed precision with six digits after the decimal point, each infinite coordinate as
`inf` and each NaN as `nan`, after a minus sign when the sign bit is set; on
`(2.0, -1.0, 4.0)` it is `Point(2.000000, -1.000000, 4.000000)`. -/
theorem C3_repr_fixed6 (p : PointObject)
    (hfit : (format_Point p.x p.y p.z).length < 100) :
    RendersPoint p ∧
      (p.x.isFinite = true → p.y.isFinite = true → p.z.isFinite = true →
        RendersFixed6 p) ∧
      point.point_repr ⟨Double.two, Double.negOne, Double.four⟩ =
        some "Point(2.000000, -1.000000, 4.000000)" ∧
      point.point_repr ⟨Double.negInf, Double.nan, Double.inf⟩ =
        some "Point(-inf, nan, inf)" :=
  ⟨⟨format_f p.x, format_f p.y, format_f p.z, format_f_coordText p.x,
      format_f_coordText p.y, format_f_coordText p.z, point_repr_of_fits p hfit⟩,
    fun hx hy hz => ⟨format_f p.x, format_f p.y, format_f p.z, format_f_fixed6 p.x hx,
      format_f_fixed6 p.y hy, format_f_fixed6 p.z hz, point_repr_of_fits p hfit⟩,
    by decide, by decide⟩

/-- Witness of C3 amended at the points `(-inf, nan, 2.0)` and `(2.0, -1.0, 4.0)`. -/
theorem C3_repr_fixed6_witness :
    RendersPoint ⟨Double.negInf, Double.nan, Double.two⟩ ∧
      RendersFixed6 ⟨Double.two, Double.negOne, Double.four⟩ :=
  ⟨(C3_repr_fixed6 ⟨Double.negInf, Double.nan, Double.two⟩ (by decide)).1,
    (C3_repr_fixed6 ⟨Double.two, Double.negOne, Double.four⟩ (by decide)).2.1
      (by decide) (by decide) (by decide)⟩

/-- C4: `Point_init` on `x="a"` returns `0`, not `-1`: the `TypeError` set by
`PyFloat_AsDouble` is left pending and the sentinel `-1.0` is stored in `x`. -/
theorem C4_init_returns_zero_on_str :
    point.Point_init origin [] [("x", PyObject.str "a")] =
        ⟨⟨Double.negOne, Double.zero, Double.zero⟩, 0, some PyErr.TypeError⟩ ∧
      convertible (PyObject.str "a") = false := by
  decide

/-- C5 fails: with `x=2.0, y="a"` the call overwrites `x` although `y` does not
convert. -/
theorem C5_not_atomic :
    convertible (PyObject.str "a") = false ∧
      (point.Point_init origin []
        (kwargs (some (PyObject.float Double.two)) (some (PyObject.str "a"))
          Option.none)).self.x = Double.two ∧
      origin.x ≠ Double.two := by
  decide

/-- C5 amended: a call whose arguments do not parse leaves the object as it was; once
they parse, a coordinate that was not supplied keeps its value, and a supplied
coordinate that converts holds its converted value when every supplied coordinate before
it (in the order `x`, `y`, `z`) converts too, whether the later ones convert or not. -/
theorem C5_init_fields (self : PointObject) (args : List PyObject)
    (kwds : List (String × PyObject)) :
    (∀ e, PyArg_ParseTupleAndKeywords args kwds = Except.error e →
        (point.Point_init self args kwds).self = self) ∧
      (∀ x y z, PyArg_ParseTupleAndKeywords args kwds = Except.ok (x, y, z) →
        (x = Option.none → (point.Point_init self args kwds).self.x = self.x) ∧
        (y = Option.none → (point.Point_init self args kwds).self.y = self.y) ∧
        (z = Option.none → (point.Point_init self args kwds).self.z = self.z) ∧
        (∀ o, x = some o → convertible o = true →
          (point.Point_init self args kwds).self.x = (PyFloat_AsDouble o).1) ∧
        (∀ o, y = some o → convertible o = true →
          (∀ a, x = some a → convertible a = true) →
          (point.Point_init self args kwds).self.y = (PyFloat_AsDouble o).1) ∧
        (∀ o, z = some o → convertible o = true →
          (∀ a, x = some a → convertible a = true) →
          (∀ b, y = some b → convertible b = true) →
          (point.Point_init self args kwds).self.z = (PyFloat_AsDouble o).1)) := by
  constructor
  · intro e h
    simp [point.Point_init, h]
  · intro x y z h
    simp only [point.Point_init, h]
    cases x <;> cases y <;> cases z <;> simp [storeCoord]

/-- Witness of C5 amended at `x=2.0, y=4, z="a"` on the origin: `x` holds `2.0` and `y`
holds `4.0`; at `x=2.0, y="a"`, `z` is kept. -/
theorem C5_init_fields_witness :
    (point.Point_init origin [] [("x", PyObject.float Double.two),
        ("y", PyObject.long 4), ("z", PyObject.str "a")]).self.x = Double.two ∧
      (point.Point_init origin [] [("x", PyObject.float Double.two),
        ("y", PyObject.long 4), ("z", PyObject.str "a")]).self.y = Double.four ∧
      (point.Point_init origin [] [("x", PyObject.float Double.two),
        ("y", PyObject.str "a")]).self.z = Double.zero :=
  have h := (C5_init_fields origin [] [("x", PyObject.float Double.two),
    ("y", PyObject.long 4), ("z", PyObject.str "a")]).2 (some (PyObject.float Double.two))
    (some (PyObject.long 4)) (some (PyObject.str "a")) rfl
  have k := (C5_init_fields origin [] [("x", PyObject.float Double.two),
    ("y", PyObject.str "a")]).2 (some (PyObject.float Double.two))
    (some (PyObject.str "a")) Option.none rfl
  ⟨h.2.2.2.1 _ rfl (by decide),
    (h.2.2.2.2.1 _ rfl (by decide) (fun a ha => by cases ha; decide)).trans (by decide),
    k.2.2.1 rfl⟩

/-- C6: the text of `Point()` is `Point(0.000000, 0.000000, 0.000000)` and the text of
`Point(x=2.0, y=-1.0, z=4.0)` is `Point(2.000000, -1.000000, 4.000000)`, not the
`Point(0.0, 0.0, 0.0)` and `Point(2.0, -1.0, 4.0)` of the docstring. -/
theorem C6_repr_differs_from_doc :
    point.point_repr origin = some "Point(0.000000, 0.000000, 0.000000)" ∧
      point.point_repr origin ≠ some "Point(0.0, 0.0, 0.0)" ∧
      point.point_repr ⟨Double.two, Double.negOne, Double.four⟩ =
        some "Point(2.000000, -1.000000, 4.000000)" ∧
      point.point_repr ⟨Double.two, Double.negOne, Double.four⟩ ≠
        some "Point(2.0, -1.0, 4.0)" ∧
      point.point_repr (point.Point_clear ⟨Double.two, Double.negOne, Double.four⟩).1 ≠
        some "Point(0.0, 0.0, 0.0)" := by
  decide

/-- C7: each field `x`, `y`, `z` of `PointObject` has an entry of its name in
`Point_members`; writing a float `v` through that entry succeeds and stores `v` in that
field, reading the entry back gives `v`, and the other fields and members read as
before. -/
theorem C7_member_roundtrip (p : PointObject) (f : Offset) (v : Double) :
    ∃ m, memberNamed (fieldName f) = some m ∧ m ∈ Point_members ∧ m.offset = f ∧
      (PyMember_SetOne p m (some (PyObject.float v))).ret = 0 ∧
      (PyMember_SetOne p m (some (PyObject.float v))).err = Option.none ∧
      loadDouble (PyMember_SetOne p m (some (PyObject.float v))).self f = v ∧
      PyMember_GetOne (PyMember_SetOne p m (some (PyObject.float v))).self m =
        Except.ok (PyObject.float v) ∧
      (∀ g, g ≠ f →
        loadDouble (PyMember_SetOne p m (some (PyObject.float v))).self g =
          loadDouble p g) ∧
      (∀ m2, m2 ∈ Point_members → m2 ≠ m →
        PyMember_GetOne (PyMember_SetOne p m (some (PyObject.float v))).self m2 =
          PyMember_GetOne p m2) := by
  have hset : ∀ m : PyMemberDef, m.flags = 0 → m.type = T_DOUBLE →
      PyMember_SetOne p m (some (PyObject.float v)) = ⟨storeDouble p m.offset v, 0, Option.none⟩ := by
    intro m hf ht
    simp [PyMember_SetOne, hf, ht, READONLY, PyFloat_AsDouble]
  cases f
  · refine ⟨⟨"x", T_DOUBLE, Offset.x, 0, "X Position."⟩, by decide, by decide, rfl, ?_⟩
    rw [hset _ rfl rfl]
    refine ⟨rfl, rfl, rfl, rfl, ?_, ?_⟩
    · intro g hg
      cases g
      · exact absurd rfl hg
      · rfl
      · rfl
    · intro m2 h2 hne
      simp only [Point_members, List.mem_cons, List.mem_singleton, List.not_mem_nil,
        or_false] at h2
      rcases h2 with rfl | rfl | rfl
      · exact absurd rfl hne
      · rfl
      · rfl
  · refine ⟨⟨"y", T_DOUBLE, Offset.y, 0, "Y Position."⟩, by decide, by decide, rfl, ?_⟩
    rw [hset _ rfl rfl]
    refine ⟨rfl, rfl, rfl, rfl, ?_, ?_⟩
    · intro g hg
      cases g
      · rfl
      · exact absurd rfl hg
      · rfl
    · intro m2 h2 hne
      simp only [Point_members, List.mem_cons, List.mem_singleton, List.not_mem_nil,
        or_false] at h2
      rcases h2 with rfl | rfl | rfl
      · rfl
      · exact absurd rfl hne
      · rfl
  · refine ⟨⟨"z", T_DOUBLE, Offset.z, 0, "Z Position."⟩, by decide, by decide, rfl, ?_⟩
    rw [hset _ rfl rfl]
    refine ⟨rfl, rfl, rfl, rfl, ?_, ?_⟩
    · intro g hg
      cases g
      · rfl
      · rfl
      · exact absurd rfl hg
    · intro m2 h2 hne
      simp only [Point_members, List.mem_cons, List.mem_singleton, List.not_mem_nil,
        or_false] at h2
      rcases h2 with rfl | rfl | rfl
      · rfl
      · rfl
      · exact absurd rfl hne

/-- Witness of C7: `p.y = 2.0` on the origin, then reading `y`. -/
theorem C7_member_roundtrip_witness :
    ∃ m, memberNamed "y" = some m ∧ m ∈ Point_members ∧ m.offset = Offset.y ∧
      (PyMember_SetOne origin m (some (PyObject.float Double.two))).ret = 0 ∧
      (PyMember_SetOne origin m (some (PyObject.float Double.two))).err = Option.none ∧
      loadDouble (PyMember_SetOne origin m (some (PyObject.float Double.two))).self
        Offset.y = Double.two ∧
      PyMember_GetOne (PyMember_SetOne origin m (some (PyObject.float Double.two))).self m =
        Except.ok (PyObject.float Double.two) ∧
      (∀ g, g ≠ Offset.y →
        loadDouble (PyMember_SetOne origin m (some (PyObject.float Double.two))).self g =
          loadDouble origin g) ∧
      (∀ m2, m2 ∈ Point_members → m2 ≠ m →
        PyMember_GetOne (PyMember_SetOne origin m (some (PyObject.float Double.two))).self
            m2 = PyMember_GetOne origin m2) :=
  C7_member_roundtrip origin Offset.y Double.two

/-- C8: `Point_init` accepts a positional argument: `Point(1.0)` returns `0` and stores
`1.0` in `x`. -/
theorem C8_positional_accepted :
    point.Point_init origin [PyObject.float Double.one] [] =
        ⟨⟨Double.one, Double.zero, Double.zero⟩, 0, Option.none⟩ ∧
      c_point.Point_init origin [PyObject.float Double.one] [] =
        ⟨⟨Double.one, Double.zero, Double.zero⟩, 0, Option.none⟩ := by
  decide

/-- C9: `Point_new`, `Point_init`, `Point_clear` and `point_repr` of `src/point.c` and of
`src/c_point/point.c` give the same object, return value, error indicator and text on
every input. -/
theorem C9_same_behaviour (alloc : Option PointObject) (self : PointObject)
    (args : List PyObject) (kwds : List (String × PyObject)) :
    point.Point_new alloc = c_point.Point_new alloc ∧
      point.Point_init self args kwds = c_point.Point_init self args kwds ∧
      point.Point_clear self = c_point.Point_clear self ∧
      point.point_repr self = c_point.point_repr self :=
  ⟨rfl, rfl, rfl, rfl⟩

/-- C10: for `x = y = z = 1e22` the formatted text has 101 characters, so `snprintf`
returns 101 for the 100-byte buffer and `_PyUnicode_FromASCII` is asked for more bytes
than the buffer holds; for three fields near 1e308 it returns 959. -/
theorem C10_repr_overruns_buffer :
    (snprintf 100 (format_Point Double.e22 Double.e22 Double.e22)).2 = 101 ∧
      (snprintf 100 (format_Point Double.e22 Double.e22 Double.e22)).1.length = 100 ∧
      point.point_repr ⟨Double.e22, Double.e22, Double.e22⟩ = Option.none ∧
      c_point.point_repr ⟨Double.e22, Double.e22, Double.e22⟩ = Option.none ∧
      (snprintf 100 (format_Point Double.dblMax Double.dblMax Double.dblMax)).2 = 959 := by
  refine ⟨by decide, by decide, by decide, by decide, ?_⟩
  decide!
